import Mathlib

/-!
# Verification of the bottom-sheet gesture/snap engine (`src/useBottomSheet.ts`)

A shallow embedding of the pure logic of the bottom-sheet composable:
snap-point normalisation, nearest-snap search, the drag state machine
(`moveDrag` / `endDrag`), programmatic snapping (`snapTo` / `snapToIndex`),
the open/close lifecycle with the module-level stacking counter, the
confirmation-guarded `requestClose`, and the priority-ordered keydown
registry with its built-in focus-trap dispatch.

Numbers are modelled as rationals (`ℚ`).  DOM side effects (element focus,
CSS classes, history push/pop, pointer capture, scroll locking) are external
collaborators and are not part of the modelled state; the events the engine
emits on its events feed are returned explicitly as lists of `BSEvent`.
-/

namespace BottomSheet

/-- Close reasons, from `type CloseReason` in the source. -/
inductive CloseReason
  | programmatic
  | backdrop
  | esc
  | drag
  | internal
  | history
deriving DecidableEq

/-- Events on the engine's events feed (`type EventMap` in the source). -/
inductive BSEvent
  | evOpen
  | afterOpen
  | close (reason : CloseReason)
  | snap (index : ℕ) (progress : ℚ)
  | dragStart
  | drag (deltaY : ℚ) (progress : ℚ)
  | dragEnd (closed : Bool)
deriving DecidableEq

/-- `clamp01(x)`: `Math.min(1, Math.max(0, x))`. -/
def clamp01 (x : ℚ) : ℚ := min 1 (max 0 x)

/-- `uniqSorted(arr)`: `Array.from(new Set(arr.map(clamp01))).sort((a, b) => a - b)`.
JS `Set` deduplicates keeping first occurrences while `List.dedup` keeps last
occurrences; since the deduplicated list is subsequently sorted ascending the
resulting list is identical either way. -/
def uniqSorted (arr : List ℚ) : List ℚ :=
  ((arr.map clamp01).dedup).insertionSort (· ≤ ·)

/-- The `snaps` computed value:
`uniqSorted(snapPointsRef.value.length ? snapPointsRef.value : [0, 1])`. -/
def snaps (snapPointsRef : List ℚ) : List ℚ :=
  uniqSorted (if snapPointsRef = [] then [0, 1] else snapPointsRef)

/-- The nearest-snap scan shared by `currentSnapIndex` and `endDrag`:
iterate with accumulator `(idx, nearest, dmin)`, replacing the best candidate
exactly when the new distance is strictly smaller (`d < dmin`), so ties keep
the first (lowest) index.  `k` is the absolute index of the head of the
remaining list. -/
def nearestAux (p : ℚ) : List ℚ → ℕ → ℕ × ℚ × ℚ → ℕ × ℚ × ℚ
  | [], _, best => best
  | sp :: rest, k, (bi, bv, dmin) =>
    if |p - sp| < dmin then nearestAux p rest (k + 1) (k, sp, |p - sp|)
    else nearestAux p rest (k + 1) (bi, bv, dmin)

/-- The full scan.  The source seeds with `nearest = points[0]`, `ni = 0`,
`dmin = Infinity`; the first loop iteration always satisfies `d < Infinity`
and installs `(0, points[0], |p - points[0]|)`, so the scan is equivalently
seeded with the first element.  `snaps` is never empty, so the `[]` case is
unreachable in the engine. -/
def nearestPair (points : List ℚ) (p : ℚ) : ℕ × ℚ :=
  match points with
  | [] => (0, 0)
  | sp :: rest =>
    let r := nearestAux p rest 1 (0, sp, |p - sp|)
    (r.1, r.2.1)

/-- Index component of the nearest-snap scan (the `currentSnapIndex` loop
tracks only the index). -/
def nearestIndex (points : List ℚ) (p : ℚ) : ℕ := (nearestPair points p).1

/-- The `currentSnapIndex` computed value:
`h = sheetRef.value?.offsetHeight || 1; p = clamp01(h ? translateY / h : 0)`
followed by the nearest scan.  After `|| 1` the height is nonzero, so the
inner conditional always divides. -/
def currentSnapIndex (sheetHeight translateY : ℚ) (snapsList : List ℚ) : ℕ :=
  let h := if sheetHeight = 0 then 1 else sheetHeight
  let p := clamp01 (translateY / h)
  nearestIndex snapsList p

/-- The configuration options involved in the drag/snap logic, with the
defaults from the source destructuring. -/
structure Config where
  closeThresholdPx : ℚ
  closeThresholdRatio : ℚ
  flingVelocityPxPerMs : ℚ
  overdragUpPx : ℚ
  overdragDownPx : ℚ
  overdragDamping : ℚ
deriving DecidableEq

/-- Defaults: `closeThresholdPx = 120`, `closeThresholdRatio = 0.25`,
`flingVelocityPxPerMs = 1.2`, `overdragUpPx = 80`, `overdragDownPx = 120`,
`overdragDamping = 0.5`. -/
def defaultConfig : Config :=
  ⟨120, 1/4, 6/5, 80, 120, 1/2⟩

/-- JS truncation toward zero, the integral part of `ToInt32`. -/
def jsTrunc (x : ℚ) : ℤ := if 0 ≤ x then ⌊x⌋ else ⌈x⌉

/-- JS `x | 0` = `ToInt32(x)`: truncate toward zero, then wrap into
`[-2^31, 2^31)`. -/
def toInt32 (x : ℚ) : ℤ := (jsTrunc x + 2 ^ 31) % 2 ^ 32 - 2 ^ 31

/-- `snapTo(progress, animate)`: `targetPx = clamp01(progress) * h` with
`h = sheetRef.value?.offsetHeight || 0`; when `!animate || reduceMotion`
the position is set without entering the animating state, otherwise
`isAnimating` is set.  Returns the new `(translateY, isAnimating)`. -/
def snapTo (reduceMotion : Bool) (h progress : ℚ) (animate isAnimating : Bool) : ℚ × Bool :=
  let targetPx := clamp01 progress * h
  if animate = false ∨ reduceMotion = true then (targetPx, isAnimating)
  else (targetPx, true)

/-- Result of `snapToIndex`: the clamped index, the snap value used, the new
position state, and the emitted events (the `snap` payload is also passed to
the `onSnap` hook; `lastSnapIndexMem := index` is bookkeeping only). -/
structure SnapResult where
  index : ℕ
  progress : ℚ
  translateY : ℚ
  isAnimating : Bool
  events : List BSEvent
deriving DecidableEq

/-- `snapToIndex(index, animate)`:
`i = Math.max(0, Math.min(pts.length - 1, index | 0)); p = pts[i];
snapTo(p, animate); events.emit('snap', { index: i, progress: p })`. -/
def snapToIndex (pts : List ℚ) (h index : ℚ) (animate reduceMotion isAnimating : Bool) :
    SnapResult :=
  let i : ℤ := max 0 (min ((pts.length : ℤ) - 1) (toInt32 index))
  let iN : ℕ := i.toNat
  let p : ℚ := pts.getD iN 0
  let st := snapTo reduceMotion h p animate isAnimating
  ⟨iN, p, st.1, st.2, [BSEvent.snap iN p]⟩

/-- The position/drag state mutated by `moveDrag` / `endDrag`.  The velocity
sample (`lastY`, `lastT`, `vY`) is time-dependent and is passed to `endDrag`
as an explicit parameter; pointer-capture bookkeeping is external. -/
structure DragState where
  dragging : Bool
  translateY : ℚ
  overUp : ℚ
  isAnimating : Bool
deriving DecidableEq

/-- The `dragProgress` computed value,
`clamp01(translateY / (sheetRef.value?.offsetHeight || window.innerHeight || 1))`;
the `window.innerHeight` fallback applies only when the sheet element is
absent and is folded into the final `|| 1` here. -/
def dragProgress (h ty : ℚ) : ℚ := clamp01 (ty / (if h = 0 then 1 else h))

/-- `moveDrag(y)`: rubber-band shaping of the displacement `dy = y - startY`.
Upward motion (`dy < 0`) keeps `translateY` at 0 and maps the distance
through the eased elastic curve into `overUp`; downward motion beyond the
sheet height is capped through the same curve.  Emits
`drag{deltaY, progress}` (also passed to the `onDrag` hook). -/
def moveDrag (cfg : Config) (h startY y : ℚ) (s : DragState) : DragState × List BSEvent :=
  if s.dragging = false then (s, [])
  else
    let dy := y - startY
    if dy < 0 then
      let t := clamp01 (|dy| / cfg.overdragUpPx)
      let eased := t * (1 - (1 - cfg.overdragDamping) * t)
      let ty := max 0 (0 : ℚ)
      ({ s with overUp := eased, translateY := ty },
       [BSEvent.drag ty (dragProgress h ty)])
    else
      let dy2 :=
        if 0 < h ∧ h < dy then
          let beyond := dy - h
          let capped := min cfg.overdragDownPx beyond
          let t := clamp01 (capped / cfg.overdragDownPx)
          h + capped * (1 - (1 - cfg.overdragDamping) * t)
        else dy
      let ty := max 0 dy2
      ({ s with overUp := 0, translateY := ty },
       [BSEvent.drag ty (dragProgress h ty)])

/-- `endDrag()`: release arbitration.  Returns the new drag state, the close
reason when `closeAnimated(reason)` was invoked (the animated close drives
the sheet off-screen and finalises via `close(reason)` on transition end or
a fallback timer), and the emitted events.  The fling branch emits no
`dragEnd` event in the source; `cleanupGesture()` resets pointer/axis
bookkeeping that is external to `DragState`. -/
def endDrag (cfg : Config) (reduceMotion : Bool) (points : List ℚ) (h vY : ℚ)
    (s : DragState) : DragState × Option CloseReason × List BSEvent :=
  if s.dragging = false then (s, none, [])
  else
    let s0 : DragState := { s with dragging := false, overUp := 0 }
    let p : ℚ := if h = 0 then 0 else s.translateY / h
    if cfg.flingVelocityPxPerMs < |vY| ∧ 0 < vY then
      (s0, some CloseReason.drag, [])
    else
      let thresholdPx := max cfg.closeThresholdPx (h * cfg.closeThresholdRatio)
      if thresholdPx < s.translateY then
        (s0, some CloseReason.drag, [BSEvent.dragEnd true])
      else
        let np := nearestPair points p
        if (999 : ℚ) / 1000 ≤ np.2 then
          (s0, some CloseReason.drag, [BSEvent.dragEnd true])
        else
          let st := snapTo reduceMotion h np.2 true true
          ({ s0 with translateY := st.1, isAnimating := st.2 },
           none, [BSEvent.dragEnd false, BSEvent.snap np.1 np.2])

/-- The lifecycle state touched by `open` / `close`.  The module-level
`STACK_COUNT` counter is shared across engine instances and is threaded
explicitly as a separate `ℤ` argument; history push/pop, the `no-select`
body class, inert marking and focus restore are external collaborators. -/
structure SheetState where
  isOpen : Bool
  translateY : ℚ
  overUp : ℚ
  activePointerId : Option ℤ
  preDrag : Bool
  axisLocked : Option Bool
deriving DecidableEq

/-- Per-sheet stacking entry: `stackIndex` ref, `null` while closed. -/
structure StackEntry where
  stackIndex : Option ℤ
deriving DecidableEq

/-- `open()`: `isOpen.value = true; stackIndex.value = ++STACK_COUNT;`
followed by the history push and the open animation (external / async).
Returns the new sheet state, the new stack entry, and the new counter. -/
def openSheet (stackCount : ℤ) (s : SheetState) :
    SheetState × StackEntry × ℤ :=
  ({ s with isOpen := true }, ⟨some (stackCount + 1)⟩, stackCount + 1)

/-- `close(reason)`: unconditionally resets the lifecycle and position state,
releases the stacking index (`STACK_COUNT = Math.max(0, STACK_COUNT - 1)`
only when one is held), and always emits `close{reason}` (also invoking the
`onClose` hook).  There is no already-closed guard in the source. -/
def close (stackCount : ℤ) (s : SheetState) (e : StackEntry) (reason : CloseReason) :
    SheetState × StackEntry × ℤ × List BSEvent :=
  let s1 : SheetState :=
    { s with isOpen := false, translateY := 0, overUp := 0,
             activePointerId := none, preDrag := false, axisLocked := none }
  match e.stackIndex with
  | some _ => (s1, ⟨none⟩, max 0 (stackCount - 1), [BSEvent.close reason])
  | none => (s1, ⟨none⟩, stackCount, [BSEvent.close reason])

/-- Outcome of the `onBeforeClose` confirmation hook: resolves `true`,
resolves a falsy value, or throws (the `await` is modelled by passing the
settled outcome). -/
inductive ConfirmOutcome
  | resolveTrue
  | resolveFalse
  | throws
deriving DecidableEq

/-- `requestClose(reason)`: when a confirmation hook is configured and it
resolves falsy or throws, return without any state change or event;
otherwise proceed to `close(reason)`. -/
def requestClose (hook : Option ConfirmOutcome) (stackCount : ℤ) (s : SheetState)
    (e : StackEntry) (reason : CloseReason) :
    SheetState × StackEntry × ℤ × List BSEvent :=
  match hook with
  | some ConfirmOutcome.resolveFalse => (s, e, stackCount, [])
  | some ConfirmOutcome.throws => (s, e, stackCount, [])
  | some ConfirmOutcome.resolveTrue => close stackCount s e reason
  | none => close stackCount s e reason

/-- What a dynamic keydown handler does on the given event: return normally
(`handled : boolean | void`, possibly having called `e.preventDefault()`),
or throw (possibly after calling `e.preventDefault()`). -/
inductive HandlerOutcome
  | ret (handled : Option Bool) (preventsDefault : Bool)
  | throws (preventsDefault : Bool)
deriving DecidableEq

/-- A keydown registration (`type KeydownReg`).  The handler is modelled by
the outcome it produces on the dispatched event. -/
structure KeydownReg where
  id : ℕ
  outcome : HandlerOutcome
  priority : ℤ
  once : Bool
  active : Bool
deriving DecidableEq

/-- The loop body of `run(e)` over the snapshot `[...regs]`, threading
`e.defaultPrevented`.  Returns (short-circuited, final defaultPrevented,
ids of the handlers that were invoked).  Inactive registrations are skipped;
a throwing handler is caught and iteration continues; after a normal return
the loop returns `true` when `handled === true || e.defaultPrevented`. -/
def runAux : List KeydownReg → Bool → Bool × Bool × List ℕ
  | [], dp => (false, dp, [])
  | reg :: rest, dp =>
    if reg.active = false then runAux rest dp
    else
      match reg.outcome with
      | HandlerOutcome.throws pd =>
        let r := runAux rest (dp || pd)
        (r.1, r.2.1, reg.id :: r.2.2)
      | HandlerOutcome.ret handled pd =>
        let dp2 := dp || pd
        if handled = some true ∨ dp2 = true then (true, dp2, [reg.id])
        else
          let r := runAux rest dp2
          (r.1, r.2.1, reg.id :: r.2.2)

/-- `run(e)`: whether some handler consumed the event. -/
def run (regs : List KeydownReg) (dp : Bool) : Bool := (runAux regs dp).1

/-- The keys dispatched by the built-in handler. -/
inductive Key
  | tab
  | escape
  | arrowUp
  | arrowDown
  | pageUp
  | pageDown
  | home
  | endKey
  | other
deriving DecidableEq

/-- What the built-in layer of `focusTrapKeydown` does after the registry. -/
inductive BuiltinAction
  | noBuiltin
  | focusTrap
  | escClose
  | arrowNav (target : ℕ)
deriving DecidableEq

/-- `focusTrapKeydown(e)`: returns early when the sheet is closed or the
element is absent (`isOpenAndSheet`), then when `keydown.run(e)` consumed the
event; otherwise dispatches the built-in Tab focus trap, Escape
`requestClose('esc')`, and arrow/page/home/end snap navigation
(`Math.max(0, idx - 1)` as `ℕ` subtraction, `Math.min(len - 1, idx + 1)`).
The DOM focus cycling itself is the view collaborator. -/
def focusTrapKeydown (isOpenAndSheet trapFocus closeOnEsc : Bool)
    (regs : List KeydownReg) (dp : Bool) (key : Key) (idx len : ℕ) : BuiltinAction :=
  if isOpenAndSheet = false then BuiltinAction.noBuiltin
  else if run regs dp = true then BuiltinAction.noBuiltin
  else if trapFocus = true ∧ key = Key.tab then BuiltinAction.focusTrap
  else if closeOnEsc = true ∧ key = Key.escape then BuiltinAction.escClose
  else
    match key with
    | Key.arrowUp => BuiltinAction.arrowNav (idx - 1)
    | Key.pageUp => BuiltinAction.arrowNav (idx - 1)
    | Key.arrowDown => BuiltinAction.arrowNav (min (len - 1) (idx + 1))
    | Key.pageDown => BuiltinAction.arrowNav (min (len - 1) (idx + 1))
    | Key.home => BuiltinAction.arrowNav 0
    | Key.endKey => BuiltinAction.arrowNav (len - 1)
    | _ => BuiltinAction.noBuiltin

/-! ## Supporting lemmas -/

lemma clamp01_nonneg (x : ℚ) : 0 ≤ clamp01 x :=
  le_min (by norm_num) (le_max_left 0 x)

lemma clamp01_le_one (x : ℚ) : clamp01 x ≤ 1 := by
  unfold clamp01
  exact min_le_left _ _

lemma clamp01_eq_self {x : ℚ} (h0 : 0 ≤ x) (h1 : x ≤ 1) : clamp01 x = x := by
  unfold clamp01
  rw [max_eq_right h0, min_eq_right h1]

lemma uniqSorted_sorted (arr : List ℚ) : (uniqSorted arr).Sorted (· ≤ ·) :=
  List.sorted_insertionSort _ _

lemma uniqSorted_nodup (arr : List ℚ) : (uniqSorted arr).Nodup :=
  ((List.perm_insertionSort _ _).nodup_iff).mpr (List.nodup_dedup _)

lemma uniqSorted_sorted_lt (arr : List ℚ) : (uniqSorted arr).Sorted (· < ·) :=
  List.Sorted.lt_of_le (uniqSorted_sorted arr) (uniqSorted_nodup arr)

lemma uniqSorted_mem_bounds (arr : List ℚ) {x : ℚ} (hx : x ∈ uniqSorted arr) :
    0 ≤ x ∧ x ≤ 1 := by
  have hmem : x ∈ (arr.map clamp01).dedup := ((List.perm_insertionSort _ _).mem_iff).mp hx
  have hmap : x ∈ arr.map clamp01 := List.mem_dedup.mp hmem
  rcases List.mem_map.mp hmap with ⟨y, _, rfl⟩
  exact ⟨clamp01_nonneg y, clamp01_le_one y⟩

lemma uniqSorted_ne_nil {arr : List ℚ} (h : arr ≠ []) : uniqSorted arr ≠ [] := by
  intro hnil
  unfold uniqSorted at hnil
  have hlen := (List.perm_insertionSort (· ≤ ·) ((arr.map clamp01).dedup)).length_eq
  rw [hnil] at hlen
  have hded : (arr.map clamp01).dedup = [] := List.length_eq_zero.mp hlen.symm
  have hmapnil : arr.map clamp01 = [] := (List.dedup_eq_nil _).mp hded
  exact h (List.map_eq_nil_iff.mp hmapnil)

lemma snaps_sorted_lt (pts : List ℚ) : (snaps pts).Sorted (· < ·) :=
  uniqSorted_sorted_lt _

lemma snaps_nodup (pts : List ℚ) : (snaps pts).Nodup :=
  uniqSorted_nodup _

lemma snaps_mem_bounds (pts : List ℚ) {x : ℚ} (hx : x ∈ snaps pts) : 0 ≤ x ∧ x ≤ 1 :=
  uniqSorted_mem_bounds _ hx

lemma snaps_ne_nil (pts : List ℚ) : snaps pts ≠ [] := by
  unfold snaps
  split
  · exact uniqSorted_ne_nil (by simp)
  · next h => exact uniqSorted_ne_nil h

/-- Once the best distance is 0 the scan never updates again: a strict
improvement would need a negative absolute distance. -/
lemma nearestAux_zero (p : ℚ) :
    ∀ (l : List ℚ) (k bi : ℕ) (bv : ℚ), nearestAux p l k (bi, bv, 0) = (bi, bv, 0) := by
  intro l
  induction l with
  | nil => intro k bi bv; rfl
  | cons a rest ih =>
    intro k bi bv
    unfold nearestAux
    rw [if_neg (not_lt.mpr (abs_nonneg _))]
    exact ih (k + 1) bi bv

/-- If `j` is the first position of `l` holding exactly `p`, the scan started
with a strictly positive best distance lands on absolute index `k + j`. -/
lemma nearestAux_finds (p : ℚ) :
    ∀ (l : List ℚ) (j : ℕ) (hj : j < l.length), l.get ⟨j, hj⟩ = p →
      (∀ m (hm : m < l.length), m < j → l.get ⟨m, hm⟩ ≠ p) →
      ∀ (k bi : ℕ) (bv dmin : ℚ), 0 < dmin →
        nearestAux p l k (bi, bv, dmin) = (k + j, p, 0) := by
  intro l
  induction l with
  | nil => intro j hj; exact absurd hj (by simp)
  | cons a rest ih =>
    intro j hj hv hfirst k bi bv dmin hd
    cases j with
    | zero =>
      have ha : a = p := hv
      unfold nearestAux
      rw [ha, sub_self, abs_zero, if_pos hd]
      simpa using nearestAux_zero p rest (k + 1) k p
    | succ j1 =>
      have hne : a ≠ p := by
        have := hfirst 0 (by simp) (Nat.succ_pos _)
        simpa using this
      have hdpos : 0 < |p - a| := abs_pos.mpr (sub_ne_zero.mpr (fun h => hne h.symm))
      have hj1 : j1 < rest.length := by simpa using Nat.lt_of_succ_lt_succ hj
      have hv1 : rest.get ⟨j1, hj1⟩ = p := by simpa using hv
      have hfirst1 : ∀ m (hm : m < rest.length), m < j1 → rest.get ⟨m, hm⟩ ≠ p := by
        intro m hm hmj
        have := hfirst (m + 1) (by simpa using Nat.succ_lt_succ hm) (Nat.succ_lt_succ hmj)
        simpa using this
      unfold nearestAux
      by_cases hcmp : |p - a| < dmin
      · rw [if_pos hcmp]
        have := ih j1 hj1 hv1 hfirst1 (k + 1) k a |p - a| hdpos
        rw [this]; congr 1; omega
      · rw [if_neg hcmp]
        have := ih j1 hj1 hv1 hfirst1 (k + 1) bi bv dmin hd
        rw [this]; congr 1; omega

/-- The nearest scan finds the first exact occurrence of `p`. -/
lemma nearestPair_eq (l : List ℚ) (p : ℚ) (j : ℕ) (hj : j < l.length)
    (hv : l.get ⟨j, hj⟩ = p)
    (hfirst : ∀ m (hm : m < l.length), m < j → l.get ⟨m, hm⟩ ≠ p) :
    nearestPair l p = (j, p) := by
  cases l with
  | nil => exact absurd hj (by simp)
  | cons a rest =>
    have hred : nearestPair (a :: rest) p =
        ((nearestAux p rest 1 (0, a, |p - a|)).1,
         (nearestAux p rest 1 (0, a, |p - a|)).2.1) := rfl
    cases j with
    | zero =>
      have ha : a = p := hv
      rw [hred, ha, sub_self, abs_zero, nearestAux_zero p rest 1 0 p]
    | succ j1 =>
      have hne : a ≠ p := by
        have := hfirst 0 (by simp) (Nat.succ_pos _)
        simpa using this
      have hdpos : 0 < |p - a| := abs_pos.mpr (sub_ne_zero.mpr (fun h => hne h.symm))
      have hj1 : j1 < rest.length := by simpa using Nat.lt_of_succ_lt_succ hj
      have hv1 : rest.get ⟨j1, hj1⟩ = p := by simpa using hv
      have hfirst1 : ∀ m (hm : m < rest.length), m < j1 → rest.get ⟨m, hm⟩ ≠ p := by
        intro m hm hmj
        have := hfirst (m + 1) (by simpa using Nat.succ_lt_succ hm) (Nat.succ_lt_succ hmj)
        simpa using this
      rw [hred, nearestAux_finds p rest j1 hj1 hv1 hfirst1 1 0 a |p - a| hdpos]
      simp [Nat.add_comm 1 j1]

/-- The scan's result index stays below any bound covering both the current
best index and the absolute indices of the remaining elements. -/
lemma nearestAux_index_lt (p : ℚ) :
    ∀ (l : List ℚ) (k bi : ℕ) (bv dmin : ℚ) (n : ℕ), bi < n → k + l.length ≤ n →
      (nearestAux p l k (bi, bv, dmin)).1 < n := by
  intro l
  induction l with
  | nil => intro k bi bv dmin n hbi _; simpa [nearestAux] using hbi
  | cons a rest ih =>
    intro k bi bv dmin n hbi hk
    unfold nearestAux
    by_cases hcmp : |p - a| < dmin
    · rw [if_pos hcmp]
      exact ih (k + 1) k a |p - a| n (by simp at hk; omega) (by simp at hk; omega)
    · rw [if_neg hcmp]
      exact ih (k + 1) bi bv dmin n hbi (by simp at hk; omega)

/-- Totality of the nearest-index lookup: a valid index for any progress. -/
lemma nearestIndex_lt {l : List ℚ} (hne : l ≠ []) (p : ℚ) :
    nearestIndex l p < l.length := by
  cases l with
  | nil => exact absurd rfl hne
  | cons a rest =>
    unfold nearestIndex nearestPair
    exact nearestAux_index_lt p rest 1 0 a |p - a| (rest.length + 1) (by omega) (by omega)

lemma snaps_eq_uniqSorted {pts : List ℚ} (h : pts ≠ []) : snaps pts = uniqSorted pts := by
  unfold snaps
  rw [if_neg h]

lemma snapTo_fst (rm : Bool) (h p : ℚ) (a ia : Bool) :
    (snapTo rm h p a ia).1 = clamp01 p * h := by
  unfold snapTo
  split <;> rfl

lemma toInt32_natCast {i : ℕ} (h : (i : ℤ) < 2 ^ 31) : toInt32 (i : ℚ) = i := by
  unfold toInt32 jsTrunc
  rw [if_pos (by positivity), Int.floor_natCast]
  omega

lemma runAux_nil (dp : Bool) : runAux [] dp = (false, dp, []) := rfl

lemma runAux_cons_inactive {reg : KeydownReg} (h : reg.active = false)
    (rest : List KeydownReg) (dp : Bool) :
    runAux (reg :: rest) dp = runAux rest dp := by
  show (if reg.active = false then runAux rest dp else _) = _
  rw [if_pos h]

lemma runAux_cons_throws {reg : KeydownReg} {pd : Bool} (ha : reg.active = true)
    (ho : reg.outcome = HandlerOutcome.throws pd) (rest : List KeydownReg) (dp : Bool) :
    runAux (reg :: rest) dp =
      ((runAux rest (dp || pd)).1, (runAux rest (dp || pd)).2.1,
       reg.id :: (runAux rest (dp || pd)).2.2) := by
  show (if reg.active = false then runAux rest dp
        else match reg.outcome with
          | HandlerOutcome.throws pd =>
            let r := runAux rest (dp || pd)
            (r.1, r.2.1, reg.id :: r.2.2)
          | HandlerOutcome.ret handled pd =>
            let dp2 := dp || pd
            if handled = some true ∨ dp2 = true then (true, dp2, [reg.id])
            else
              let r := runAux rest dp2
              (r.1, r.2.1, reg.id :: r.2.2)) = _
  rw [if_neg (by simp [ha]), ho]

lemma runAux_cons_ret_short {reg : KeydownReg} {handled : Option Bool} {pd : Bool}
    (ha : reg.active = true) (ho : reg.outcome = HandlerOutcome.ret handled pd)
    (hs : handled = some true ∨ (dp || pd) = true) (rest : List KeydownReg) :
    runAux (reg :: rest) dp = (true, dp || pd, [reg.id]) := by
  show (if reg.active = false then runAux rest dp
        else match reg.outcome with
          | HandlerOutcome.throws pd =>
            let r := runAux rest (dp || pd)
            (r.1, r.2.1, reg.id :: r.2.2)
          | HandlerOutcome.ret handled pd =>
            let dp2 := dp || pd
            if handled = some true ∨ dp2 = true then (true, dp2, [reg.id])
            else
              let r := runAux rest dp2
              (r.1, r.2.1, reg.id :: r.2.2)) = _
  rw [if_neg (by simp [ha]), ho]
  exact if_pos hs

lemma runAux_cons_ret_cont {reg : KeydownReg} {handled : Option Bool} {pd dp : Bool}
    (ha : reg.active = true) (ho : reg.outcome = HandlerOutcome.ret handled pd)
    (hs : ¬(handled = some true ∨ (dp || pd) = true)) (rest : List KeydownReg) :
    runAux (reg :: rest) dp =
      ((runAux rest (dp || pd)).1, (runAux rest (dp || pd)).2.1,
       reg.id :: (runAux rest (dp || pd)).2.2) := by
  show (if reg.active = false then runAux rest dp
        else match reg.outcome with
          | HandlerOutcome.throws pd =>
            let r := runAux rest (dp || pd)
            (r.1, r.2.1, reg.id :: r.2.2)
          | HandlerOutcome.ret handled pd =>
            let dp2 := dp || pd
            if handled = some true ∨ dp2 = true then (true, dp2, [reg.id])
            else
              let r := runAux rest dp2
              (r.1, r.2.1, reg.id :: r.2.2)) = _
  rw [if_neg (by simp [ha]), ho]
  exact if_neg hs

/-- Splitting the `run` loop: once a prefix of the snapshot has run without
consuming the event, iteration continues over the remainder with the
accumulated `defaultPrevented` flag. -/
lemma runAux_append {pre : List KeydownReg} {dp dp1 : Bool} {ids1 : List ℕ}
    (rest : List KeydownReg) (hpre : runAux pre dp = (false, dp1, ids1)) :
    runAux (pre ++ rest) dp =
      ((runAux rest dp1).1, (runAux rest dp1).2.1, ids1 ++ (runAux rest dp1).2.2) := by
  induction pre generalizing dp ids1 with
  | nil =>
    rw [runAux_nil] at hpre
    simp only [Prod.mk.injEq] at hpre
    obtain ⟨-, rfl, rfl⟩ := hpre
    simp
  | cons reg pre ih =>
    by_cases hact : reg.active = false
    · rw [runAux_cons_inactive hact] at hpre
      rw [List.cons_append, runAux_cons_inactive hact, ih hpre]
    · have ha : reg.active = true := by
        cases h : reg.active
        · exact absurd h hact
        · rfl
      cases hout : reg.outcome with
      | throws pd =>
        rw [runAux_cons_throws ha hout] at hpre
        rcases hq : runAux pre (dp || pd) with ⟨b1, b2, l2⟩
        rw [hq] at hpre
        simp only [Prod.mk.injEq] at hpre
        obtain ⟨rfl, rfl, rfl⟩ := hpre
        rw [List.cons_append, runAux_cons_throws ha hout, ih hq]
        simp
      | ret handled pd =>
        by_cases hshort : handled = some true ∨ (dp || pd) = true
        · rw [runAux_cons_ret_short ha hout hshort] at hpre
          simp at hpre
        · rw [runAux_cons_ret_cont ha hout hshort] at hpre
          rcases hq : runAux pre (dp || pd) with ⟨b1, b2, l2⟩
          rw [hq] at hpre
          simp only [Prod.mk.injEq] at hpre
          obtain ⟨rfl, rfl, rfl⟩ := hpre
          rw [List.cons_append, runAux_cons_ret_cont ha hout hshort, ih hq]
          simp

/-! ## Claim C1 -/

/-- A sheet that is open and holds stack index 1, with the counter at 1. -/
def c1OpenState : SheetState := ⟨true, 0, 0, none, false, none⟩

/-- The stack entry held by `c1OpenState`. -/
def c1Entry : StackEntry := ⟨some 1⟩

/-- First `close('programmatic')` on the open sheet. -/
def c1First : SheetState × StackEntry × ℤ × List BSEvent :=
  close 1 c1OpenState c1Entry CloseReason.programmatic

/-- Second `close('programmatic')` while already closed. -/
def c1Second : SheetState × StackEntry × ℤ × List BSEvent :=
  close c1First.2.2.1 c1First.1 c1First.2.1 CloseReason.programmatic

/-- C1 counterexample: `close` has no already-closed guard, so invoking it a
second time emits another `close` event — two `close` events in total for two
consecutive calls, where the claim requires exactly one and no event on the
second call. -/
theorem C1_close_not_idempotent_counterexample :
    c1Second.2.2.2 = [BSEvent.close CloseReason.programmatic] ∧
    (c1First.2.2.2 ++ c1Second.2.2.2).length = 2 := by
  constructor <;> rfl

/-- C1 amended: calling `close` while already closed leaves the sheet state,
the stack entry and the stacking counter unchanged (the state reset is
idempotent and no held index remains to release), but it is not a no-op on
the events feed: every call, including one from the `closed` state, emits a
`close` event, so two consecutive calls emit two `close` events. -/
theorem C1_close_amended (c : ℤ) (s : SheetState) (e : StackEntry) (r r2 : CloseReason) :
    (close (close c s e r).2.2.1 (close c s e r).1 (close c s e r).2.1 r2).1 =
      (close c s e r).1 ∧
    (close (close c s e r).2.2.1 (close c s e r).1 (close c s e r).2.1 r2).2.1 =
      (close c s e r).2.1 ∧
    (close (close c s e r).2.2.1 (close c s e r).1 (close c s e r).2.1 r2).2.2.1 =
      (close c s e r).2.2.1 ∧
    (close (close c s e r).2.2.1 (close c s e r).1 (close c s e r).2.1 r2).2.2.2 =
      [BSEvent.close r2] := by
  rcases s with ⟨o, ty, ou, ap, pdr, ax⟩
  rcases e with ⟨si⟩
  cases si <;> simp [close]

/-! ## Claim C5 -/

/-- C5: `requestClose(reason)` with a confirmation hook that resolves falsy
or throws returns without touching the sheet state, the stack entry, the
counter, offset or overdrag, and emits no event at all (in particular no
`close` event). -/
theorem C5_requestClose_denied (c : ℤ) (s : SheetState) (e : StackEntry) (r : CloseReason) :
    requestClose (some ConfirmOutcome.resolveFalse) c s e r = (s, e, c, []) ∧
    requestClose (some ConfirmOutcome.throws) c s e r = (s, e, c, []) :=
  ⟨rfl, rfl⟩

/-! ## Claim C9 -/

/-- A closed sheet before `open()`. -/
def initSheet : SheetState := ⟨false, 0, 0, none, false, none⟩

/-- Sheet A opens first (counter 0 → 1, A holds index 1). -/
def c9OpenA : SheetState × StackEntry × ℤ := openSheet 0 initSheet

/-- Sheet B opens next (counter 1 → 2, B holds index 2). -/
def c9OpenB : SheetState × StackEntry × ℤ := openSheet c9OpenA.2.2 initSheet

/-- Sheet A closes out of stack order (counter 2 → 1, B still open). -/
def c9CloseA : SheetState × StackEntry × ℤ × List BSEvent :=
  close c9OpenB.2.2 c9OpenA.1 c9OpenA.2.1 CloseReason.programmatic

/-- Sheet C opens while B is still open (counter 1 → 2 again). -/
def c9OpenC : SheetState × StackEntry × ℤ := openSheet c9CloseA.2.2.1 initSheet

/-- C9 counterexample: after `open A; open B; close A`, a newly opening
sheet C is assigned stack index 2, the same index sheet B still holds while
open — the index is reused while held. -/
theorem C9_stack_reuse_counterexample :
    c9OpenB.1.isOpen = true ∧
    c9OpenB.2.1.stackIndex = some 2 ∧
    c9OpenC.2.1.stackIndex = some 2 := by
  refine ⟨rfl, rfl, rfl⟩

/-- C9 amended: two sheets opened consecutively with no intervening close
receive distinct stack indices, and releasing a held index at close
decrements the process-wide counter with a floor of 0; but after an
out-of-LIFO-order close the counter can fall back to a value whose
increment is an index another open sheet still holds, so indices can be
reused while held (see the counterexample). -/
theorem C9_stack_amended (c : ℤ) (s t : SheetState) (e : StackEntry) (r : CloseReason)
    (i : ℤ) (hheld : e.stackIndex = some i) :
    (openSheet c s).2.1.stackIndex ≠ (openSheet (openSheet c s).2.2 t).2.1.stackIndex ∧
    (close c s e r).2.2.1 = max 0 (c - 1) ∧
    0 ≤ (close c s e r).2.2.1 := by
  refine ⟨?_, ?_, ?_⟩
  · simp only [openSheet, Option.some.injEq, ne_eq]
    omega
  · simp [close, hheld]
  · simp [close, hheld]

/-- C9 amended witness at a concrete held entry. -/
theorem C9_stack_amended_witness :
    (openSheet 5 initSheet).2.1.stackIndex ≠
      (openSheet (openSheet 5 initSheet).2.2 initSheet).2.1.stackIndex ∧
    (close 5 initSheet ⟨some 5⟩ CloseReason.esc).2.2.1 = max 0 (5 - 1) ∧
    0 ≤ (close 5 initSheet ⟨some 5⟩ CloseReason.esc).2.2.1 :=
  C9_stack_amended 5 initSheet initSheet ⟨some 5⟩ CloseReason.esc 5 rfl

/-! ## Claim C6 -/

/-- Concrete evaluation of `snaps` on an unclamped, unsorted input. -/
lemma snaps_clamp_example : snaps [5, -3, 1/2] = [0, 1/2, 1] := by
  rw [snaps_eq_uniqSorted (by simp)]
  norm_num [uniqSorted, clamp01, List.insertionSort, List.orderedInsert,
    List.dedup_cons_of_not_mem]

/-- Concrete evaluation of `snaps` on the scenario snap points. -/
lemma snaps_halfList : snaps [0, 1/2, 1] = [0, 1/2, 1] := by
  rw [snaps_eq_uniqSorted (by simp)]
  norm_num [uniqSorted, clamp01, List.insertionSort, List.orderedInsert,
    List.dedup_cons_of_not_mem]

/-- Concrete evaluation of `snaps` on the empty list. -/
lemma snaps_nil_eval : snaps ([] : List ℚ) = [0, 1] := by
  unfold snaps
  rw [if_pos rfl]
  norm_num [uniqSorted, clamp01, List.insertionSort, List.orderedInsert,
    List.dedup_cons_of_not_mem]

/-- C6: for every input list the derived snap set is strictly sorted
ascending (hence sorted and deduplicated), every element lies in [0,1], the
set is nonempty (with `[0,1]` as the fallback on empty input), and the
nearest-index lookup is total: it returns a valid index for every progress
value. -/
theorem C6_snaps_invariants (pts : List ℚ) :
    (snaps pts).Sorted (· < ·) ∧
    (∀ x, x ∈ snaps pts → 0 ≤ x ∧ x ≤ 1) ∧
    snaps pts ≠ [] ∧
    (pts = [] → snaps pts = [0, 1]) ∧
    (∀ p : ℚ, nearestIndex (snaps pts) p < (snaps pts).length) := by
  refine ⟨snaps_sorted_lt pts, fun x hx => snaps_mem_bounds pts hx, snaps_ne_nil pts,
    ?_, fun p => nearestIndex_lt (snaps_ne_nil pts) p⟩
  intro hnil
  subst hnil
  exact snaps_nil_eval

/-- C6 witness at concrete inputs: a clamped member satisfies the bounds, the
empty-input fallback evaluates to `[0,1]`, and the nearest lookup produces an
in-range index. -/
theorem C6_snaps_invariants_witness :
    (0 ≤ (1/2 : ℚ) ∧ (1/2 : ℚ) ≤ 1) ∧
    snaps ([] : List ℚ) = [0, 1] ∧
    nearestIndex (snaps [5, -3, 1/2]) (7/10) < (snaps [5, -3, 1/2]).length := by
  refine ⟨(C6_snaps_invariants [5, -3, 1/2]).2.1 (1/2) ?_,
    (C6_snaps_invariants ([] : List ℚ)).2.2.2.1 rfl,
    (C6_snaps_invariants [5, -3, 1/2]).2.2.2.2 (7/10)⟩
  rw [snaps_clamp_example]
  simp

/-! ## Claim C7 -/

lemma snapToIndex_translateY (pts : List ℚ) (h index : ℚ) (a rm ia : Bool) :
    (snapToIndex pts h index a rm ia).translateY =
      clamp01 (pts.getD (max 0 (min ((pts.length : ℤ) - 1) (toInt32 index))).toNat 0) * h :=
  snapTo_fst rm h _ a ia

lemma currentSnapIndex_eq {sh : ℚ} (ty : ℚ) (l : List ℚ) (hsh : sh ≠ 0) :
    currentSnapIndex sh ty l = nearestIndex l (clamp01 (ty / sh)) := by
  unfold currentSnapIndex
  rw [if_neg hsh]

/-- C7: for every valid index `i` into the snap set, reading
`currentSnapIndex` immediately after `snapToIndex(i, animate)` gives back
`i` (whenever the sheet reports a nonzero height, and `i` is within the
int32 range that `index | 0` preserves). -/
theorem C7_snapToIndex_roundtrip (pts : List ℚ) (i : ℕ) (h : ℚ) (animate rm ia : Bool)
    (hi : i < (snaps pts).length) (hsmall : (i : ℤ) < 2 ^ 31) (hh : h ≠ 0) :
    currentSnapIndex h (snapToIndex (snaps pts) h (i : ℚ) animate rm ia).translateY
      (snaps pts) = i := by
  have hidx : (max 0 (min (((snaps pts).length : ℤ) - 1) (toInt32 (i : ℚ)))).toNat = i := by
    rw [toInt32_natCast hsmall]
    omega
  have hgd : (snaps pts).getD i 0 = (snaps pts).get ⟨i, hi⟩ := List.getD_eq_get _ _ hi
  have hmem : (snaps pts).get ⟨i, hi⟩ ∈ snaps pts := (snaps pts).get_mem i hi
  have hb := snaps_mem_bounds pts hmem
  have hcl : clamp01 ((snaps pts).get ⟨i, hi⟩) = (snaps pts).get ⟨i, hi⟩ :=
    clamp01_eq_self hb.1 hb.2
  rw [snapToIndex_translateY, hidx, hgd, hcl, currentSnapIndex_eq _ _ hh,
    mul_div_cancel_right₀ _ hh, hcl]
  unfold nearestIndex
  rw [nearestPair_eq (snaps pts) _ i hi rfl ?_]
  intro m hm hmi heq
  have hfin : (⟨m, hm⟩ : Fin (snaps pts).length) = ⟨i, hi⟩ :=
    (snaps_nodup pts).get_inj_iff.mp heq
  have hmieq : m = i := congrArg Fin.val hfin
  omega

/-- C7 witness: round-trip at index 2 of the snap set `[0, 1/2, 1]` with a
100px sheet. -/
theorem C7_snapToIndex_roundtrip_witness :
    currentSnapIndex 100
      (snapToIndex (snaps [0, 1/2, 1]) 100 ((2 : ℕ) : ℚ) true false false).translateY
      (snaps [0, 1/2, 1]) = 2 :=
  C7_snapToIndex_roundtrip [0, 1/2, 1] 2 100 true false false
    (by rw [snaps_halfList]; norm_num) (by norm_num) (by norm_num)

/-! ## Claim C10 -/

/-- C10: `snapToIndex` is total over every numeric index: the `index | 0`
conversion and the min/max clamp always produce an in-range index into the
(always nonempty) snap set, the progress it uses is exactly that index's
snap value, and the emitted `snap` event carries that in-range index paired
with that value. -/
theorem C10_snapToIndex_total (pts : List ℚ) (h index : ℚ) (animate rm ia : Bool) :
    ∃ hlt : (snapToIndex (snaps pts) h index animate rm ia).index < (snaps pts).length,
      (snapToIndex (snaps pts) h index animate rm ia).progress =
        (snaps pts).get ⟨(snapToIndex (snaps pts) h index animate rm ia).index, hlt⟩ ∧
      (snapToIndex (snaps pts) h index animate rm ia).events =
        [BSEvent.snap (snapToIndex (snaps pts) h index animate rm ia).index
          (snapToIndex (snaps pts) h index animate rm ia).progress] := by
  have hne := snaps_ne_nil pts
  have hlen : 0 < (snaps pts).length := List.length_pos.mpr hne
  have hidx : (snapToIndex (snaps pts) h index animate rm ia).index =
      (max 0 (min (((snaps pts).length : ℤ) - 1) (toInt32 index))).toNat := rfl
  have hlt : (snapToIndex (snaps pts) h index animate rm ia).index < (snaps pts).length := by
    rw [hidx]
    omega
  exact ⟨hlt, List.getD_eq_get _ _ hlt, rfl⟩

/-! ## Claim C3 -/

/-- C3: whenever an active drag is released with sampled velocity whose
magnitude exceeds `flingVelocityPxPerMs` and whose sign is downward
(closing), `endDrag` invokes the animated close with reason `drag` — for
every offset, snap list and configuration. -/
theorem C3_fling_closes (cfg : Config) (rm : Bool) (points : List ℚ) (h vY : ℚ)
    (s : DragState) (hd : s.dragging = true)
    (hfling : cfg.flingVelocityPxPerMs < |vY|) (hdir : 0 < vY) :
    (endDrag cfg rm points h vY s).2.1 = some CloseReason.drag ∧
    (endDrag cfg rm points h vY s).1.dragging = false := by
  simp [endDrag, hd, hfling, hdir]

/-- C3 witness: a downward fling at 5 px/ms from 10px of displacement. -/
theorem C3_fling_closes_witness :
    (endDrag defaultConfig false (snaps [0, 1]) 100 5 ⟨true, 10, 0, false⟩).2.1 =
      some CloseReason.drag ∧
    (endDrag defaultConfig false (snaps [0, 1]) 100 5 ⟨true, 10, 0, false⟩).1.dragging =
      false :=
  C3_fling_closes defaultConfig false (snaps [0, 1]) 100 5 ⟨true, 10, 0, false⟩ rfl
    (by rw [show |(5 : ℚ)| = 5 from abs_of_pos (by norm_num)]; norm_num [defaultConfig])
    (by norm_num)

/-! ## Claim C4 -/

/-- The eased elastic curve `t * (1 - (1 - damping) * t)` stays within [0,1]
for `t ∈ [0,1]` and `damping ∈ [0,1]`. -/
lemma eased_bounds {t d : ℚ} (ht0 : 0 ≤ t) (ht1 : t ≤ 1) (hd0 : 0 ≤ d) (hd1 : d ≤ 1) :
    0 ≤ t * (1 - (1 - d) * t) ∧ t * (1 - (1 - d) * t) ≤ 1 := by
  have h1 : 0 ≤ (1 - d) * t := mul_nonneg (by linarith) ht0
  have h2 : (1 - d) * t ≤ (1 - d) * 1 :=
    mul_le_mul_of_nonneg_left ht1 (by linarith)
  constructor
  · exact mul_nonneg ht0 (by linarith)
  · exact mul_le_one ht1 (by linarith) (by linarith)

/-- C4: during a drag, every upward pointer displacement leaves the rendered
offset at exactly 0 with the elastic `overUp` progress inside [0,1], and
every downward displacement keeps the offset at or below
`sheetHeight + overdragDownPx` (for a sheet with positive height and the
documented `overdragDamping ∈ [0,1]`, positive overdrag travel options). -/
theorem C4_moveDrag_bounds (cfg : Config) (h startY y : ℚ) (s : DragState)
    (hd : s.dragging = true) (hh : 0 < h)
    (hdamp0 : 0 ≤ cfg.overdragDamping) (hdamp1 : cfg.overdragDamping ≤ 1)
    (hup : 0 < cfg.overdragUpPx) (hdown : 0 < cfg.overdragDownPx) :
    (y - startY < 0 →
      (moveDrag cfg h startY y s).1.translateY = 0 ∧
      0 ≤ (moveDrag cfg h startY y s).1.overUp ∧
      (moveDrag cfg h startY y s).1.overUp ≤ 1) ∧
    (0 ≤ y - startY →
      (moveDrag cfg h startY y s).1.translateY ≤ h + cfg.overdragDownPx) := by
  constructor
  · intro hneg
    have hb := eased_bounds (clamp01_nonneg (|y - startY| / cfg.overdragUpPx))
      (clamp01_le_one (|y - startY| / cfg.overdragUpPx)) hdamp0 hdamp1
    simp only [moveDrag, hd]
    rw [if_neg (by simp), if_pos hneg]
    refine ⟨by simp, hb.1, hb.2⟩
  · intro hpos
    have hnneg : ¬(y - startY < 0) := not_lt.mpr hpos
    simp only [moveDrag, hd]
    rw [if_neg (by simp), if_neg hnneg]
    by_cases hcase : 0 < h ∧ h < y - startY
    · rw [if_pos hcase]
      have hcle : min cfg.overdragDownPx (y - startY - h) ≤ cfg.overdragDownPx :=
        min_le_left _ _
      have hc0 : 0 ≤ min cfg.overdragDownPx (y - startY - h) :=
        le_min (le_of_lt hdown) (by linarith [hcase.2])
      have ht0 := clamp01_nonneg (min cfg.overdragDownPx (y - startY - h) / cfg.overdragDownPx)
      have hfac : min cfg.overdragDownPx (y - startY - h) *
          (1 - (1 - cfg.overdragDamping) *
            clamp01 (min cfg.overdragDownPx (y - startY - h) / cfg.overdragDownPx)) ≤
          min cfg.overdragDownPx (y - startY - h) := by
        have hprod : 0 ≤ (1 - cfg.overdragDamping) *
            clamp01 (min cfg.overdragDownPx (y - startY - h) / cfg.overdragDownPx) :=
          mul_nonneg (by linarith) ht0
        exact mul_le_of_le_one_right hc0 (by linarith)
      refine max_le (by linarith) (by linarith)
    · rw [if_neg hcase]
      have hdy : y - startY ≤ h := by
        rcases not_and_or.mp hcase with hn | hn
        · exact absurd hh hn
        · linarith [not_lt.mp hn]
      exact max_le (by linarith) (by linarith)

/-- C4 witness: an upward displacement of 50px on a 100px sheet leaves the
offset at 0 with a valid elastic progress. -/
theorem C4_moveDrag_bounds_witness :
    (moveDrag defaultConfig 100 0 (-50) ⟨true, 30, 0, false⟩).1.translateY = 0 ∧
    0 ≤ (moveDrag defaultConfig 100 0 (-50) ⟨true, 30, 0, false⟩).1.overUp ∧
    (moveDrag defaultConfig 100 0 (-50) ⟨true, 30, 0, false⟩).1.overUp ≤ 1 :=
  (C4_moveDrag_bounds defaultConfig 100 0 (-50) ⟨true, 30, 0, false⟩ rfl (by norm_num)
    (by norm_num [defaultConfig]) (by norm_num [defaultConfig])
    (by norm_num [defaultConfig]) (by norm_num [defaultConfig])).1 (by norm_num)

/-! ## Claim C2 -/

/-- `endDrag` reaches the snap branch exactly when the release is not a
closing fling, the displacement does not cross the close threshold, and the
nearest snap value is not effectively 1. -/
lemma endDrag_snap_branch (cfg : Config) (rm : Bool) (points : List ℚ) (h vY : ℚ)
    (s : DragState) (hd : s.dragging = true)
    (hfl : ¬(cfg.flingVelocityPxPerMs < |vY| ∧ 0 < vY))
    (hth : ¬(max cfg.closeThresholdPx (h * cfg.closeThresholdRatio) < s.translateY))
    (hh : h ≠ 0)
    (hnear : ¬((999 : ℚ) / 1000 ≤ (nearestPair points (s.translateY / h)).2)) :
    endDrag cfg rm points h vY s =
      ({ s with dragging := false, overUp := 0,
                translateY := (snapTo rm h (nearestPair points (s.translateY / h)).2 true true).1,
                isAnimating := (snapTo rm h (nearestPair points (s.translateY / h)).2 true true).2 },
       none,
       [BSEvent.dragEnd false,
        BSEvent.snap (nearestPair points (s.translateY / h)).1
          (nearestPair points (s.translateY / h)).2]) := by
  simp only [endDrag, hd, hh, if_false, hfl, hth, hnear, ite_false]
  simp

/-- C2 counterexample: on a 1000px sheet, releasing at 0.6×height = 600px
with zero velocity crosses the default close threshold
`max(120, 0.25 × 1000) = 250`, so `endDrag` dismisses with reason `drag`
and emits `dragEnd{closed: true}` — it does not snap to 0.5 and emits no
`snap` event, contrary to the claim. -/
theorem C2_scenarioA_counterexample :
    (endDrag defaultConfig false (snaps [0, 1/2, 1]) 1000 0
        ⟨true, 6/10 * 1000, 0, false⟩).2.1 = some CloseReason.drag ∧
    (endDrag defaultConfig false (snaps [0, 1/2, 1]) 1000 0
        ⟨true, 6/10 * 1000, 0, false⟩).2.2 = [BSEvent.dragEnd true] := by
  rw [snaps_halfList]
  constructor <;>
    norm_num [endDrag, defaultConfig, nearestPair, nearestAux, snapTo, clamp01, abs_of_nonneg]

/-- C2 amended: with snap points `[0, ½, 1]` and the default configuration,
a drag released at offset 0.6×height with velocity at or below the fling
threshold animates to the nearest snap point ½ and emits
`dragEnd{closed: false}` followed by `snap{index: 1, progress: ½}` — provided
the sheet height is at most 200px, so that 0.6×height does not exceed the
default close threshold `max(120, 0.25×height)`.  For taller sheets the same
release crosses the close threshold and the sheet dismisses with reason
`drag` instead (see the counterexample). -/
theorem C2_scenarioA_amended (h vY : ℚ) (hh : 0 < h) (hle : h ≤ 200) (hv : |vY| ≤ 6/5) :
    endDrag defaultConfig false (snaps [0, 1/2, 1]) h vY ⟨true, 6/10 * h, 0, false⟩ =
      (⟨false, 1/2 * h, 0, true⟩, none,
       [BSEvent.dragEnd false, BSEvent.snap 1 (1/2)]) := by
  have hp : (6/10 * h) / h = 3/5 := by
    rw [mul_div_assoc, div_self hh.ne', mul_one]
    norm_num
  have hnp : nearestPair [0, 1/2, 1] (3/5) = (1, 1/2) := by
    norm_num [nearestPair, nearestAux, abs_of_nonneg]
  rw [snaps_halfList]
  rw [endDrag_snap_branch defaultConfig false [0, 1/2, 1] h vY ⟨true, 6/10 * h, 0, false⟩
    rfl ?hfl ?hth hh.ne' ?hnear]
  case hfl =>
    intro hc
    exact absurd hc.1 (not_lt.mpr (by simpa [defaultConfig] using hv))
  case hth =>
    show ¬(max defaultConfig.closeThresholdPx (h * defaultConfig.closeThresholdRatio) <
      6/10 * h)
    have h120 : 6/10 * h ≤ 120 := by linarith
    exact not_lt.mpr (le_trans h120 (le_max_left _ _))
  case hnear =>
    show ¬((999 : ℚ) / 1000 ≤ (nearestPair [0, 1/2, 1] ((6/10 * h) / h)).2)
    rw [hp, hnp]
    norm_num
  rw [hp, hnp]
  rw [snapTo_fst]
  norm_num [clamp01, snapTo]

/-- C2 amended witness: the scenario on a 100px sheet, released at 60px with
zero velocity, snaps to ½ (translateY 50px) and emits `snap{1, ½}`. -/
theorem C2_scenarioA_amended_witness :
    endDrag defaultConfig false (snaps [0, 1/2, 1]) 100 0 ⟨true, 6/10 * 100, 0, false⟩ =
      (⟨false, 1/2 * 100, 0, true⟩, none,
       [BSEvent.dragEnd false, BSEvent.snap 1 (1/2)]) :=
  C2_scenarioA_amended 100 0 (by norm_num) (by norm_num)
    (by rw [abs_zero]; norm_num)

/-! ## Claim C8 -/

/-- C8: in `run(e)` over the snapshot, once iteration reaches an active
registration whose handler returns the truthy handled signal
(`handled === true`) or leaves the event consumed (`e.defaultPrevented`
after the handler ran), the loop returns `true` immediately: no later
(lower-priority) registration is invoked (the invoked-id list stops at this
handler), and `focusTrapKeydown` skips the built-in Tab focus-trap /
Escape / arrow-navigation dispatch for every key. -/
theorem C8_run_short_circuits (pre post : List KeydownReg) (reg : KeydownReg)
    (dp dp1 : Bool) (ids1 : List ℕ) (hOpt : Option Bool) (pd : Bool)
    (hpre : runAux pre dp = (false, dp1, ids1))
    (hact : reg.active = true)
    (hout : reg.outcome = HandlerOutcome.ret hOpt pd)
    (hshort : hOpt = some true ∨ (dp1 || pd) = true)
    (tf ce : Bool) (key : Key) (idx len : ℕ) :
    runAux (pre ++ reg :: post) dp = (true, dp1 || pd, ids1 ++ [reg.id]) ∧
    focusTrapKeydown true tf ce (pre ++ reg :: post) dp key idx len =
      BuiltinAction.noBuiltin := by
  have hstep : runAux (reg :: post) dp1 = (true, dp1 || pd, [reg.id]) :=
    runAux_cons_ret_short hact hout hshort post
  have hmain := runAux_append (reg :: post) hpre
  rw [hstep] at hmain
  refine ⟨hmain, ?_⟩
  have hrun : run (pre ++ reg :: post) dp = true := by
    unfold run
    rw [hmain]
  unfold focusTrapKeydown
  rw [if_neg (by simp), if_pos hrun]

/-- C8 witness: with no earlier handlers, a priority-5 handler returning
`true` short-circuits a remaining priority-0 handler (id 2 is never
invoked) and suppresses the built-in Escape behavior. -/
theorem C8_run_short_circuits_witness :
    runAux ([] ++ (⟨1, HandlerOutcome.ret (some true) false, 5, false, true⟩ : KeydownReg) ::
        [⟨2, HandlerOutcome.ret (some true) false, 0, false, true⟩]) false =
      (true, false || false, [] ++ [1]) ∧
    focusTrapKeydown true true true
      ([] ++ (⟨1, HandlerOutcome.ret (some true) false, 5, false, true⟩ : KeydownReg) ::
        [⟨2, HandlerOutcome.ret (some true) false, 0, false, true⟩]) false Key.escape 0 2 =
      BuiltinAction.noBuiltin :=
  C8_run_short_circuits [] [⟨2, HandlerOutcome.ret (some true) false, 0, false, true⟩]
    ⟨1, HandlerOutcome.ret (some true) false, 5, false, true⟩ false false []
    (some true) false rfl rfl rfl (Or.inl rfl) true true Key.escape 0 2

end BottomSheet
